import Mathlib

/-!
Shallow embedding of the Mattermost adapter of the multibot repository
(`pkg/bothandler/mattermost.go`, present in two versions), together with the
handler-registry shapes it consumes, and theorems settling the spec claims.

Side effects (HTTP posts, file downloads, handler invocations) are embedded
as explicit action/event lists; adapter state is passed explicitly; Go
runtime panics (such as closing an already-closed channel) are embedded as
the `Except.error` branch.
-/

namespace Multibot

/-- State of a Go channel, as far as `close` is concerned. -/
inductive GoChan where
  | opened
  | closed
deriving DecidableEq

/-- Go semantics of `close(ch)`: closing an already-closed channel panics at
runtime (embedded as the error branch). -/
def goClose : GoChan → Except String GoChan
  | .opened => .ok .closed
  | .closed => .error "close of closed channel"

/-- The adapter state relevant to `Close` and `ChannelMessageSend`:
`stopChan` (a Go channel, `none` embeds a nil channel), `WebSocketConn`
(`none` embeds a nil connection), and `DefaultChannel`. -/
structure MattermostMessagePlatform where
  stopChan : Option GoChan := none
  WebSocketConn : Option Unit := none
  DefaultChannel : String := ""
deriving DecidableEq

/-- The struct returned by a successful `NewMessagePlatformFromMattermost`:
`stopChan: make(chan bool)` (fresh, open), no WebSocket connection yet
(`ProcessMessages` not started), empty `DefaultChannel`. -/
def NewMessagePlatformFromMattermost : MattermostMessagePlatform :=
  { stopChan := some .opened, WebSocketConn := none, DefaultChannel := "" }

/-- `Close()`: `if s.stopChan != nil { close(s.stopChan) }` then
`if s.WebSocketConn != nil { s.WebSocketConn.Close() }`. Closing the Go
channel panics when the channel is already closed; the gorilla
`Conn.Close()` merely returns an error when called again, so it needs no
state beyond the (unchanged) field. Identical in both versions of the
source file. -/
def MattermostMessagePlatform.Close (s : MattermostMessagePlatform) :
    Except String MattermostMessagePlatform :=
  match s.stopChan with
  | some ch =>
    match goClose ch with
    | .ok ch' => .ok { s with stopChan := some ch' }
    | .error e => .error e
  | none => .ok s

/-- Modelled from the spec: the `SendOptions` configuration bag (its
declaration is not among the given sources). The spec lists a target
channel override and a reply-threading reference among its recognized
options. The Mattermost `SendWithOptions` never reads it, so its exact
field set does not affect any theorem below. -/
structure SendOptions where
  Channel : Option String := none
  ReplyToId : Option String := none

/-- An outbound network call made by the send path. -/
inductive NetAction where
  | createPost (channelId message : String)
deriving DecidableEq

/-- `ChannelMessageSend(channel, message)`: empty channel falls back to
`DefaultChannel`; if still empty, return the channel-resolution error
before any network call; otherwise POST the message (the transport outcome
is an oracle: `transportOk` says whether the server accepted it). The Go
method never mutates the receiver, so the state is returned unchanged.
Identical in both versions of the source file up to the error text. -/
def ChannelMessageSend (s : MattermostMessagePlatform)
    (transportOk : String → String → Bool) (channel message : String) :
    MattermostMessagePlatform × List NetAction × Except String Unit :=
  let channel := if channel = "" then s.DefaultChannel else channel
  let channelId := channel
  if channelId = "" then
    (s, [], .error "no channel specified")
  else
    (s, [.createPost channelId message],
      if transportOk channelId message then .ok ()
      else .error ("failed to send message to channel " ++ channel))

/-- `SendWithOptions(text, options)`: nil-receiver guard, then
`ChannelMessageSend("", text)` with the error only logged. The `options`
argument is never read. Identical in both versions of the source file. -/
def SendWithOptions (s : Option MattermostMessagePlatform)
    (transportOk : String → String → Bool) (text : String)
    (_options : SendOptions) :
    Option MattermostMessagePlatform × List NetAction :=
  match s with
  | none => (none, [])
  | some st =>
    let r := ChannelMessageSend st transportOk "" text
    (some r.1, r.2.1)

/-- `Send(text)`: nil-receiver guard, then `SendWithOptions(text,
SendOptions{})`. Identical in both versions of the source file. -/
def Send (s : Option MattermostMessagePlatform)
    (transportOk : String → String → Bool) (text : String) :
    Option MattermostMessagePlatform × List NetAction :=
  match s with
  | none => (none, [])
  | some _ => SendWithOptions s transportOk text {}

/-- C1: the spec requires `Close()` to be idempotent (no error, no panic on
a second call, including on an adapter that never started
`ProcessMessages()`), but on the adapter returned by the constructor the
first `Close` closes `stopChan` and a second `Close` runs `close` on an
already-closed channel, which panics. -/
theorem mattermost_close_twice_panics :
    NewMessagePlatformFromMattermost.Close =
      .ok { stopChan := some .closed, WebSocketConn := none, DefaultChannel := "" } ∧
    NewMessagePlatformFromMattermost.Close.bind MattermostMessagePlatform.Close =
      .error "close of closed channel" := by
  constructor <;> rfl

/-- C10: `Send` and `SendWithOptions` on a nil adapter pointer return
immediately: no panic (the functions are total) and no network action, for
every text, options bag and transport behaviour. -/
theorem nil_adapter_send_noop (transportOk : String → String → Bool)
    (text : String) (options : SendOptions) :
    Send none transportOk text = (none, []) ∧
    SendWithOptions none transportOk text options = (none, []) := by
  constructor <;> rfl

/-- C5: `ChannelMessageSend` with an empty channel argument resolves to the
adapter's `DefaultChannel` (the POST targets it); when `DefaultChannel` is
also empty it returns the channel-resolution error, makes no network call,
and leaves the adapter state unchanged. -/
theorem channelMessageSend_default_and_error
    (s t : MattermostMessagePlatform) (transportOk : String → String → Bool)
    (message : String) (hd : s.DefaultChannel ≠ "") (ht : t.DefaultChannel = "") :
    ChannelMessageSend t transportOk "" message =
      (t, [], .error "no channel specified") ∧
    (ChannelMessageSend s transportOk "" message).2.1 =
      [.createPost s.DefaultChannel message] := by
  constructor
  · simp [ChannelMessageSend, ht]
  · simp [ChannelMessageSend, hd]

theorem channelMessageSend_default_and_error_witness :
    ({ DefaultChannel := "general" } : MattermostMessagePlatform).DefaultChannel ≠ "" ∧
    ({ } : MattermostMessagePlatform).DefaultChannel = "" ∧
    (ChannelMessageSend { } (fun _ _ => true) "" "hi" =
        ({ }, [], .error "no channel specified") ∧
      (ChannelMessageSend { DefaultChannel := "general" } (fun _ _ => true) "" "hi").2.1 =
        [.createPost ({ DefaultChannel := "general" } : MattermostMessagePlatform).DefaultChannel "hi"]) :=
  ⟨by decide, by decide,
    channelMessageSend_default_and_error { DefaultChannel := "general" } { }
      (fun _ _ => true) "hi" (by decide) (by decide)⟩

/-- Modelled from the spec: the normalized inbound `Request` (its
declaration is not among the given sources; the dispatcher builds it
positionally as `Request{content, "mattermost", post.ChannelId,
post.UserId}`): text, platform, channel id, sender id. -/
structure Request where
  text : String
  platform : String
  channelId : String
  userId : String

/-- Modelled from the spec: `ExtendedMessage` (its declaration is not among
the given sources), carrying text and an optional image payload (raw
bytes); the dispatcher builds `ExtendedMessage{Text: content}` and reads
the `Text` and `Image` fields of the pointer result. -/
structure ExtendedMessage where
  Text : String
  Image : Option (List Nat) := none

/-- The fields of a Mattermost post used by the dispatcher (both versions
declare or consume exactly these: id, channel, sender, message text,
attachment file ids, thread root id). -/
structure MattermostPost where
  Id : String := ""
  ChannelId : String := ""
  UserId : String := ""
  Message : String := ""
  FileIds : List String := []
  RootId : String := ""
deriving DecidableEq

/-- Outcome of extracting `Data["post"]` from a WebSocket event and
unmarshalling it: the key may be absent or not a string, the JSON may fail
to unmarshal, or a post is obtained. -/
inductive PostField where
  | absent
  | malformed
  | parsed (post : MattermostPost)
deriving DecidableEq

/-- A WebSocket event as consumed by `handleWebSocketEvent`: its event name
and the (pre-decoded) outcome of its `post` payload. -/
structure MattermostWebSocketEvent where
  Event : String
  post : PostField
deriving DecidableEq

/-- Modelled from the spec: the process-wide handler registry tables
(`Handlers`, `CatchallHandlers`, `CatchallExtendedHandlers`,
`MsgInputHandlers`, `ImageHandlers`), declared outside the given sources;
the dispatcher looks the two maps up by key and ranges over the three
sequences in order. Passed explicitly instead of as package-level state. -/
structure HandlerRegistry where
  Handlers : String → Option (Unit → String)
  CatchallHandlers : List (Request → String)
  CatchallExtendedHandlers : List (ExtendedMessage → Option ExtendedMessage)
  MsgInputHandlers : String → Option (Request → String)
  ImageHandlers : List (String → Request → String)

/-- Observable steps of one dispatcher run: handler invocations (sequence
handlers tagged by their registration index), download attempts with their
outcome, and outbound replies (`rootId = ""` means a plain, unthreaded
send, mirroring `sendReply` which sets `root_id` only when non-empty). -/
inductive DispatchEvent where
  | invokeExact (key : String)
  | invokeCatchall (idx : Nat)
  | invokeCatchallExtended (idx : Nat)
  | invokeCommand (command text : String)
  | invokeImage (idx : Nat) (filename : String)
  | downloadAttempt (fileId : String) (ok : Bool)
  | reply (channelId message rootId : String)
deriving DecidableEq

/-- Split a character list at the first space: `some (before, after)` when a
space occurs, `none` otherwise. -/
def splitFirstSpace : List Char → Option (List Char × List Char)
  | [] => none
  | c :: cs =>
    if c = ' ' then some ([], cs)
    else
      match splitFirstSpace cs with
      | some (pre, post) => some (c :: pre, post)
      | none => none

/-- Go `strings.SplitN(s, " ", 2)`: `[before, after]` split at the first
space when one occurs, else `[s]`. -/
def splitN2 (s : String) : List String :=
  match splitFirstSpace s.data with
  | some (pre, post) => [⟨pre⟩, ⟨post⟩]
  | none => [s]

/-- `sendReply(channelId, message, rootId)`: one POST of the message to the
channel, threaded under `rootId` when non-empty (failures are only
logged). -/
def sendReplyActs (channelId message rootId : String) : List DispatchEvent :=
  [.reply channelId message rootId]

/-- `sendImageReply`: its body only forwards to `sendReply` (file upload is
unimplemented), ignoring the image bytes and the original content. -/
def sendImageReplyActs (channelId message : String) (_imageData : List Nat)
    (rootId _originalContent : String) : List DispatchEvent :=
  sendReplyActs channelId message rootId

/-- Exact-match stage: look `content` up in `Handlers`; on a hit, invoke the
handler with no arguments and send the result unconditionally (the source
has no emptiness check here). -/
def exactStage (reg : HandlerRegistry) (channelId root content : String) :
    List DispatchEvent :=
  match reg.Handlers content with
  | some h => .invokeExact content :: sendReplyActs channelId (h ()) root
  | none => []

/-- Catchall stage: `for _, v := range CatchallHandlers`, invoking each with
the base `Request` and replying when the result is non-empty; `i` is the
registration index of the head handler. -/
def catchallStageAux (channelId userId root content : String) :
    Nat → List (Request → String) → List DispatchEvent
  | _, [] => []
  | i, v :: rest =>
    let r := v ⟨content, "mattermost", channelId, userId⟩
    (.invokeCatchall i :: (if r ≠ "" then sendReplyActs channelId r root else []))
      ++ catchallStageAux channelId userId root content (i + 1) rest

/-- Extended-catchall stage: `for _, v := range CatchallExtendedHandlers`;
a non-nil result with non-empty text and nil image is sent as text, and a
non-nil image goes through `sendImageReply` (two independent checks, as in
the source). -/
def extendedStageAux (channelId root content : String) :
    Nat → List (ExtendedMessage → Option ExtendedMessage) → List DispatchEvent
  | _, [] => []
  | i, v :: rest =>
    (.invokeCatchallExtended i ::
      (match v { Text := content } with
       | none => []
       | some r =>
         (if r.Text ≠ "" ∧ r.Image = none then sendReplyActs channelId r.Text root else [])
           ++ (match r.Image with
               | some img => sendImageReplyActs channelId r.Text img root content
               | none => [])))
      ++ extendedStageAux channelId root content (i + 1) rest

/-- Command-word stage: `strings.SplitN(content, " ", 2)`; only when a
second token exists is the first token looked up in `MsgInputHandlers`,
and a hit is invoked with a `Request` carrying the remainder. -/
def commandStage (reg : HandlerRegistry) (channelId userId root content : String) :
    List DispatchEvent :=
  match splitN2 content with
  | command :: actual :: _ =>
    match reg.MsgInputHandlers command with
    | some ih =>
      let response := ih ⟨actual, "mattermost", channelId, userId⟩
      .invokeCommand command actual ::
        (if response ≠ "" then sendReplyActs channelId response root else [])
    | none => []
  | _ => []

/-- Image-handler run over one downloaded file: `for _, v := range
ImageHandlers`, each invoked with the local path and the original
`Request`. -/
def imageRunAux (channelId userId root content filename : String) :
    Nat → List (String → Request → String) → List DispatchEvent
  | _, [] => []
  | i, v :: rest =>
    let r := v filename ⟨content, "mattermost", channelId, userId⟩
    (.invokeImage i filename :: (if r ≠ "" then sendReplyActs channelId r root else []))
      ++ imageRunAux channelId userId root content filename (i + 1) rest

/-- Attachment stage: for each file id, download to `tmp/<id>` (outcome
given by the `downloadOk` oracle); a failure is logged and `continue`s to
the next file, a success runs every image handler on the file. The dead
`if false { os.Remove(filename) }` cleanup is omitted. -/
def attachStageAux (reg : HandlerRegistry) (downloadOk : String → Bool)
    (channelId userId root content : String) :
    List String → List DispatchEvent
  | [] => []
  | fileId :: rest =>
    let filename := "tmp/" ++ fileId
    (if downloadOk fileId then
      .downloadAttempt fileId true ::
        imageRunAux channelId userId root content filename 0 reg.ImageHandlers
     else [.downloadAttempt fileId false])
      ++ attachStageAux reg downloadOk channelId userId root content rest

/-- `handleWebSocketEvent`, common to both versions of the source file up to
the root id passed to `sendReply` (`rootIdOf`): drop non-`posted` events,
absent and malformed `post` payloads, and the bot's own messages; then run
the five stages in order, unconditionally. -/
def handleWebSocketEventCore (reg : HandlerRegistry) (downloadOk : String → Bool)
    (botUserId : String) (rootIdOf : MattermostPost → String)
    (event : MattermostWebSocketEvent) : List DispatchEvent :=
  if event.Event ≠ "posted" then []
  else
    match event.post with
    | .absent => []
    | .malformed => []
    | .parsed post =>
      if post.UserId = botUserId then []
      else
        let content := post.Message
        let root := rootIdOf post
        exactStage reg post.ChannelId root content
          ++ catchallStageAux post.ChannelId post.UserId root content 0 reg.CatchallHandlers
          ++ extendedStageAux post.ChannelId root content 0 reg.CatchallExtendedHandlers
          ++ commandStage reg post.ChannelId post.UserId root content
          ++ (if post.FileIds.isEmpty then []
              else attachStageAux reg downloadOk post.ChannelId post.UserId root content post.FileIds)

/-- First version of the dispatcher: replies are threaded under the
triggering post's own id (`post.Id`). -/
def handleWebSocketEventV1 (reg : HandlerRegistry) (downloadOk : String → Bool)
    (botUserId : String) (event : MattermostWebSocketEvent) : List DispatchEvent :=
  handleWebSocketEventCore reg downloadOk botUserId (fun p => p.Id) event

/-- Second version of the dispatcher: replies carry the triggering post's
`RootId` field (empty for a top-level post, hence an unthreaded send). -/
def handleWebSocketEventV2 (reg : HandlerRegistry) (downloadOk : String → Bool)
    (botUserId : String) (event : MattermostWebSocketEvent) : List DispatchEvent :=
  handleWebSocketEventCore reg downloadOk botUserId (fun p => p.RootId) event

/-- Registration index of a catchall-handler invocation event. -/
def DispatchEvent.catchallIdx : DispatchEvent → Option Nat
  | .invokeCatchall i => some i
  | _ => none

/-- Registration index of an extended-catchall invocation event. -/
def DispatchEvent.extendedIdx : DispatchEvent → Option Nat
  | .invokeCatchallExtended i => some i
  | _ => none

/-- Registration index of an image-handler invocation event. -/
def DispatchEvent.imageIdx : DispatchEvent → Option Nat
  | .invokeImage i _ => some i
  | _ => none

/-- The root id of a reply event, `none` for non-reply events. -/
def DispatchEvent.replyRoot : DispatchEvent → Option String
  | .reply _ _ r => some r
  | _ => none

/-- Whether every reply in a trace is threaded under the given root id. -/
def allRepliesRooted (root : String) (tr : List DispatchEvent) : Bool :=
  tr.all fun e =>
    match e.replyRoot with
    | some r => r = root
    | none => true

/-- A registry with no handler registered at all. -/
def emptyRegistry : HandlerRegistry :=
  { Handlers := fun _ => none, CatchallHandlers := [],
    CatchallExtendedHandlers := [], MsgInputHandlers := fun _ => none,
    ImageHandlers := [] }

/-- A registry with only two exact-text handlers: one returning an empty
string, one returning a non-empty string. -/
def exactOnlyRegistry : HandlerRegistry :=
  { Handlers := fun s =>
      if s = "ping" then some (fun _ => "")
      else if s = "hello" then some (fun _ => "World!") else none,
    CatchallHandlers := [], CatchallExtendedHandlers := [],
    MsgInputHandlers := fun _ => none, ImageHandlers := [] }

/-- A registry with only one command-word handler, at key `!foo`. -/
def cmdRegistry : HandlerRegistry :=
  { Handlers := fun _ => none, CatchallHandlers := [],
    CatchallExtendedHandlers := [],
    MsgInputHandlers := fun s =>
      if s = "!foo" then some (fun r => "echo:" ++ r.text) else none,
    ImageHandlers := [] }

/-- A registry with two catchall handlers, two extended-catchall handlers
and two image handlers, used to witness the sequence-stage claims. -/
def seqRegistry : HandlerRegistry :=
  { Handlers := fun s => if s = "hi" then some (fun _ => "hey") else none,
    CatchallHandlers := [fun _ => "", fun r => "saw:" ++ r.text],
    CatchallExtendedHandlers :=
      [fun _ => none, fun m => some { Text := "ext:" ++ m.Text }],
    MsgInputHandlers := fun _ => none,
    ImageHandlers := [fun fn _ => "img:" ++ fn, fun _ _ => ""] }

/-- A sample inbound post whose text hits the empty-returning exact
handler of `exactOnlyRegistry`. -/
def pingPost : MattermostPost :=
  { Id := "p1", ChannelId := "ch", UserId := "u", Message := "ping" }

/-- A sample top-level inbound post (empty `RootId`) whose text hits the
`hello` exact handler of `exactOnlyRegistry`. -/
def helloPost : MattermostPost :=
  { Id := "p1", ChannelId := "ch", UserId := "u", Message := "hello" }

end Multibot

namespace Multibot

theorem mem_sendReplyActs {e : DispatchEvent} {c m r : String}
    (h : e ∈ sendReplyActs c m r) : e = .reply c m r := by
  simpa [sendReplyActs] using h

theorem mem_exactStage {reg : HandlerRegistry} {ch root content : String}
    {e : DispatchEvent} (h : e ∈ exactStage reg ch root content) :
    e = .invokeExact content ∨ ∃ m, e = .reply ch m root := by
  unfold exactStage at h
  split at h
  · rcases List.mem_cons.mp h with h | h
    · exact Or.inl h
    · exact Or.inr ⟨_, mem_sendReplyActs h⟩
  · cases h

theorem mem_catchallStageAux {ch u root content : String} {i : Nat}
    {hs : List (Request → String)} {e : DispatchEvent}
    (h : e ∈ catchallStageAux ch u root content i hs) :
    (∃ j, e = .invokeCatchall j) ∨ ∃ m, e = .reply ch m root := by
  induction hs generalizing i with
  | nil => cases h
  | cons v rest iH =>
    unfold catchallStageAux at h
    rcases List.mem_append.mp h with h | h
    · rcases List.mem_cons.mp h with h | h
      · exact Or.inl ⟨_, h⟩
      · split at h
        · exact Or.inr ⟨_, mem_sendReplyActs h⟩
        · cases h
    · exact iH h

theorem mem_extendedStageAux {ch root content : String} {i : Nat}
    {hs : List (ExtendedMessage → Option ExtendedMessage)} {e : DispatchEvent}
    (h : e ∈ extendedStageAux ch root content i hs) :
    (∃ j, e = .invokeCatchallExtended j) ∨ ∃ m, e = .reply ch m root := by
  induction hs generalizing i with
  | nil => cases h
  | cons v rest iH =>
    unfold extendedStageAux at h
    rcases List.mem_append.mp h with h | h
    · rcases List.mem_cons.mp h with h | h
      · exact Or.inl ⟨_, h⟩
      · split at h
        · cases h
        · rcases List.mem_append.mp h with h | h
          · split at h
            · exact Or.inr ⟨_, mem_sendReplyActs h⟩
            · cases h
          · split at h
            · exact Or.inr ⟨_, mem_sendReplyActs h⟩
            · cases h
    · exact iH h

theorem mem_commandStage {reg : HandlerRegistry} {ch u root content : String}
    {e : DispatchEvent} (h : e ∈ commandStage reg ch u root content) :
    (∃ c t, e = .invokeCommand c t) ∨ ∃ m, e = .reply ch m root := by
  unfold commandStage at h
  split at h
  · split at h
    · rcases List.mem_cons.mp h with h | h
      · exact Or.inl ⟨_, _, h⟩
      · split at h
        · exact Or.inr ⟨_, mem_sendReplyActs h⟩
        · cases h
    · cases h
  · cases h

theorem mem_imageRunAux {ch u root content fn : String} {i : Nat}
    {hs : List (String → Request → String)} {e : DispatchEvent}
    (h : e ∈ imageRunAux ch u root content fn i hs) :
    (∃ j g, e = .invokeImage j g) ∨ ∃ m, e = .reply ch m root := by
  induction hs generalizing i with
  | nil => cases h
  | cons v rest iH =>
    unfold imageRunAux at h
    rcases List.mem_append.mp h with h | h
    · rcases List.mem_cons.mp h with h | h
      · exact Or.inl ⟨_, _, h⟩
      · split at h
        · exact Or.inr ⟨_, mem_sendReplyActs h⟩
        · cases h
    · exact iH h

theorem mem_attachStageAux {reg : HandlerRegistry} {dl : String → Bool}
    {ch u root content : String} {fs : List String} {e : DispatchEvent}
    (h : e ∈ attachStageAux reg dl ch u root content fs) :
    (∃ f b, e = .downloadAttempt f b) ∨ (∃ j g, e = .invokeImage j g) ∨
      ∃ m, e = .reply ch m root := by
  induction fs with
  | nil => cases h
  | cons f rest iH =>
    unfold attachStageAux at h
    rcases List.mem_append.mp h with h | h
    · split at h
      · rcases List.mem_cons.mp h with h | h
        · exact Or.inl ⟨_, _, h⟩
        · rcases mem_imageRunAux h with h | h
          · exact Or.inr (Or.inl h)
          · exact Or.inr (Or.inr h)
      · rcases List.mem_cons.mp h with h | h
        · exact Or.inl ⟨_, _, h⟩
        · cases h
    · exact iH h

theorem splitFirstSpace_not_mem {l : List Char} (h : ' ' ∉ l) :
    splitFirstSpace l = none := by
  induction l with
  | nil => rfl
  | cons c cs ih =>
    rw [List.mem_cons, not_or] at h
    unfold splitFirstSpace
    rw [if_neg (Ne.symm h.1), ih h.2]

theorem splitFirstSpace_append {cmd : List Char} (rest : List Char)
    (h : ' ' ∉ cmd) :
    splitFirstSpace (cmd ++ ' ' :: rest) = some (cmd, rest) := by
  induction cmd with
  | nil => simp [splitFirstSpace]
  | cons c cs ih =>
    rw [List.mem_cons, not_or] at h
    rw [List.cons_append]
    unfold splitFirstSpace
    rw [if_neg (Ne.symm h.1), ih h.2]

theorem splitN2_eq_pair (cmd rest : String) (h : ' ' ∉ cmd.data) :
    splitN2 (cmd ++ " " ++ rest) = [cmd, rest] := by
  unfold splitN2
  have hd : (cmd ++ " " ++ rest).data = cmd.data ++ ' ' :: rest.data := by
    simp [String.data_append]
  rw [hd, splitFirstSpace_append _ h]

theorem splitN2_single (s : String) (h : ' ' ∉ s.data) : splitN2 s = [s] := by
  unfold splitN2
  rw [splitFirstSpace_not_mem h]

theorem handleWebSocketEventCore_not_posted (reg : HandlerRegistry)
    (dl : String → Bool) (bot : String) (f : MattermostPost → String)
    (event : MattermostWebSocketEvent) (hev : event.Event ≠ "posted") :
    handleWebSocketEventCore reg dl bot f event = [] := by
  unfold handleWebSocketEventCore
  rw [if_pos hev]

theorem handleWebSocketEventCore_self (reg : HandlerRegistry)
    (dl : String → Bool) (bot : String) (f : MattermostPost → String)
    (event : MattermostWebSocketEvent) (p : MattermostPost)
    (hp : event.post = .parsed p) (hself : p.UserId = bot) :
    handleWebSocketEventCore reg dl bot f event = [] := by
  unfold handleWebSocketEventCore
  rw [hp]
  simp [hself]

theorem handleWebSocketEventCore_eq (reg : HandlerRegistry)
    (dl : String → Bool) (bot : String) (f : MattermostPost → String)
    (event : MattermostWebSocketEvent) (p : MattermostPost)
    (hp : event.post = .parsed p) (hev : event.Event = "posted")
    (hself : p.UserId ≠ bot) :
    handleWebSocketEventCore reg dl bot f event =
      exactStage reg p.ChannelId (f p) p.Message
        ++ catchallStageAux p.ChannelId p.UserId (f p) p.Message 0 reg.CatchallHandlers
        ++ extendedStageAux p.ChannelId (f p) p.Message 0 reg.CatchallExtendedHandlers
        ++ commandStage reg p.ChannelId p.UserId (f p) p.Message
        ++ (if p.FileIds.isEmpty then []
            else attachStageAux reg dl p.ChannelId p.UserId (f p) p.Message p.FileIds) := by
  unfold handleWebSocketEventCore
  rw [hp]
  simp [hev, hself]

/-- C7: a message whose sender identity equals the bot's own identity is
dropped before any stage: the dispatcher's trace is empty (no handler
invocation, no reply), for any content, registry and either version's
root-id choice. -/
theorem self_message_no_dispatch (reg : HandlerRegistry)
    (downloadOk : String → Bool) (botUserId : String)
    (rootIdOf : MattermostPost → String) (event : MattermostWebSocketEvent)
    (p : MattermostPost) (hp : event.post = .parsed p)
    (hself : p.UserId = botUserId) :
    handleWebSocketEventCore reg downloadOk botUserId rootIdOf event = [] := by
  unfold handleWebSocketEventCore
  rw [hp]
  simp [hself]

theorem self_message_no_dispatch_witness :
    (⟨"posted", .parsed { UserId := "bot" }⟩ : MattermostWebSocketEvent).post =
      .parsed { UserId := "bot" } ∧
    ({ UserId := "bot" } : MattermostPost).UserId = "bot" ∧
    handleWebSocketEventCore emptyRegistry (fun _ => true) "bot" (fun p => p.Id)
      ⟨"posted", .parsed { UserId := "bot" }⟩ = [] :=
  ⟨rfl, rfl,
    self_message_no_dispatch emptyRegistry (fun _ => true) "bot" (fun p => p.Id)
      ⟨"posted", .parsed { UserId := "bot" }⟩ { UserId := "bot" } rfl rfl⟩

/-- C2 counterexample: with an exact handler at key `ping` returning the
empty string, the message `ping` still produces a reply (the empty string
is sent), contradicting the claim that an empty return produces no
reply. -/
theorem exact_match_empty_reply_cex :
    handleWebSocketEventV1 exactOnlyRegistry (fun _ => true) "bot"
      ⟨"posted", .parsed pingPost⟩ =
      [.invokeExact "ping", .reply "ch" "" "p1"] := by
  rfl

/-- C2 (amended): the exact-match stage invokes a registered handler with no
arguments and sends its return value as a reply unconditionally — also
when it is empty — and produces nothing for an unmatched text. -/
theorem exact_match_stage_behavior (reg : HandlerRegistry)
    (channelId root content other : String) (h : Unit → String)
    (hreg : reg.Handlers content = some h) (hnone : reg.Handlers other = none) :
    exactStage reg channelId root content =
      [.invokeExact content, .reply channelId (h ()) root] ∧
    exactStage reg channelId root other = [] := by
  constructor
  · unfold exactStage
    rw [hreg]
    rfl
  · unfold exactStage
    rw [hnone]

theorem exact_match_stage_behavior_witness :
    exactOnlyRegistry.Handlers "ping" = some (fun _ => "") ∧
    exactOnlyRegistry.Handlers "nomatch" = none ∧
    (exactStage exactOnlyRegistry "ch" "p1" "ping" =
        [.invokeExact "ping", .reply "ch" "" "p1"] ∧
      exactStage exactOnlyRegistry "ch" "p1" "nomatch" = []) :=
  ⟨rfl, rfl,
    exact_match_stage_behavior exactOnlyRegistry "ch" "p1" "ping" "nomatch"
      (fun _ => "") rfl rfl⟩

/-- C6: the command-word stage splits the text at the first space; when a
second token exists and the first token is a registered command key, the
handler is invoked with a `Request` whose text is the remainder after the
first space (with the reply sent when non-empty); a single token with no
space, or a first token that is not registered, invokes no command-word
handler. -/
theorem command_word_dispatch (reg : HandlerRegistry)
    (channelId userId root cmd rest single bad badRest : String)
    (f : Request → String)
    (hcmd : ' ' ∉ cmd.data) (hreg : reg.MsgInputHandlers cmd = some f)
    (hsingle : ' ' ∉ single.data)
    (hbad : ' ' ∉ bad.data) (hbadreg : reg.MsgInputHandlers bad = none) :
    commandStage reg channelId userId root (cmd ++ " " ++ rest) =
      .invokeCommand cmd rest ::
        (if f ⟨rest, "mattermost", channelId, userId⟩ ≠ "" then
          [.reply channelId (f ⟨rest, "mattermost", channelId, userId⟩) root]
        else []) ∧
    commandStage reg channelId userId root single = [] ∧
    commandStage reg channelId userId root (bad ++ " " ++ badRest) = [] := by
  refine ⟨?_, ?_, ?_⟩
  · unfold commandStage
    rw [splitN2_eq_pair cmd rest hcmd]
    simp [hreg, sendReplyActs]
  · unfold commandStage
    rw [splitN2_single single hsingle]
  · unfold commandStage
    rw [splitN2_eq_pair bad badRest hbad]
    simp [hbadreg]

theorem command_word_dispatch_witness :
    ' ' ∉ "!foo".data ∧
    cmdRegistry.MsgInputHandlers "!foo" = some (fun r => "echo:" ++ r.text) ∧
    (commandStage cmdRegistry "ch" "u" "p1" ("!foo" ++ " " ++ "bar baz") =
        [.invokeCommand "!foo" "bar baz", .reply "ch" "echo:bar baz" "p1"] ∧
      commandStage cmdRegistry "ch" "u" "p1" "!foo" = [] ∧
      commandStage cmdRegistry "ch" "u" "p1" ("!nope" ++ " " ++ "x") = []) :=
  ⟨by decide, rfl,
    command_word_dispatch cmdRegistry "ch" "u" "p1" "!foo" "bar baz" "!foo"
      "!nope" "x" (fun r => "echo:" ++ r.text) (by decide) rfl (by decide)
      (by decide) rfl⟩

theorem allRepliesRooted_core (reg : HandlerRegistry) (dl : String → Bool)
    (bot : String) (f : MattermostPost → String)
    (event : MattermostWebSocketEvent) (p : MattermostPost)
    (hp : event.post = .parsed p) :
    allRepliesRooted (f p) (handleWebSocketEventCore reg dl bot f event) = true := by
  by_cases hev : event.Event = "posted"
  · by_cases hself : p.UserId = bot
    · rw [handleWebSocketEventCore_self reg dl bot f event p hp hself]
      rfl
    · rw [handleWebSocketEventCore_eq reg dl bot f event p hp hev hself]
      unfold allRepliesRooted
      rw [List.all_eq_true]
      intro e he
      have hre : ∀ m : String, e = .reply p.ChannelId m (f p) →
          (match e.replyRoot with
            | some r => decide (r = f p)
            | none => true) = true := by
        intro m hm
        subst hm
        simp [DispatchEvent.replyRoot]
      rcases List.mem_append.mp he with he | he
      · rcases List.mem_append.mp he with he | he
        · rcases List.mem_append.mp he with he | he
          · rcases List.mem_append.mp he with he | he
            · rcases mem_exactStage he with h | ⟨m, h⟩
              · subst h; rfl
              · exact hre m h
            · rcases mem_catchallStageAux he with ⟨j, h⟩ | ⟨m, h⟩
              · subst h; rfl
              · exact hre m h
          · rcases mem_extendedStageAux he with ⟨j, h⟩ | ⟨m, h⟩
            · subst h; rfl
            · exact hre m h
        · rcases mem_commandStage he with ⟨c, t, h⟩ | ⟨m, h⟩
          · subst h; rfl
          · exact hre m h
      · have hat : e ∈ attachStageAux reg dl p.ChannelId p.UserId (f p) p.Message p.FileIds := by
          revert he
          split
          · intro he; cases he
          · exact id
        rcases mem_attachStageAux hat with ⟨g, b, h⟩ | ⟨j, g, h⟩ | ⟨m, h⟩
        · subst h; rfl
        · subst h; rfl
        · exact hre m h
  · rw [handleWebSocketEventCore_not_posted reg dl bot f event hev]
    rfl

/-- C4 counterexample: on the same top-level triggering post (id `p1`,
empty `RootId`), version 1 threads the reply under the post's own id while
version 2 sends it with an empty root id (a plain send), so the two
dispatcher versions do not behave identically and version 2 does not use
the triggering message's own id. -/
theorem reply_threading_versions_differ_cex :
    handleWebSocketEventV1 exactOnlyRegistry (fun _ => true) "bot"
        ⟨"posted", .parsed helloPost⟩ =
      [.invokeExact "hello", .reply "ch" "World!" "p1"] ∧
    handleWebSocketEventV2 exactOnlyRegistry (fun _ => true) "bot"
        ⟨"posted", .parsed helloPost⟩ =
      [.invokeExact "hello", .reply "ch" "World!" ""] :=
  ⟨rfl, rfl⟩

/-- C4 (amended): in version 1 of the dispatcher every reply produced by any
stage is sent with the triggering post's own id (`post.Id`) as root id,
while in version 2 every reply is sent with the triggering post's `RootId`
field (empty — hence an unthreaded, plain send — for a top-level post); the
two versions therefore differ on top-level posts. -/
theorem reply_threading_per_version (reg : HandlerRegistry)
    (dl : String → Bool) (bot : String) (event : MattermostWebSocketEvent)
    (p : MattermostPost) (hp : event.post = .parsed p) :
    allRepliesRooted p.Id (handleWebSocketEventV1 reg dl bot event) = true ∧
    allRepliesRooted p.RootId (handleWebSocketEventV2 reg dl bot event) = true :=
  ⟨allRepliesRooted_core reg dl bot (fun q => q.Id) event p hp,
    allRepliesRooted_core reg dl bot (fun q => q.RootId) event p hp⟩

theorem reply_threading_per_version_witness :
    (⟨"posted", .parsed helloPost⟩ : MattermostWebSocketEvent).post =
      .parsed helloPost ∧
    (allRepliesRooted helloPost.Id
        (handleWebSocketEventV1 exactOnlyRegistry (fun _ => true) "bot"
          ⟨"posted", .parsed helloPost⟩) = true ∧
      allRepliesRooted helloPost.RootId
        (handleWebSocketEventV2 exactOnlyRegistry (fun _ => true) "bot"
          ⟨"posted", .parsed helloPost⟩) = true) :=
  ⟨rfl,
    reply_threading_per_version exactOnlyRegistry (fun _ => true) "bot"
      ⟨"posted", .parsed helloPost⟩ helloPost rfl⟩

theorem filterMap_catchallIdx_catchallStageAux (ch u root content : String)
    (hs : List (Request → String)) (i : Nat) :
    (catchallStageAux ch u root content i hs).filterMap DispatchEvent.catchallIdx =
      List.range' i hs.length := by
  induction hs generalizing i with
  | nil => rfl
  | cons v rest ih =>
    unfold catchallStageAux
    by_cases hr : v ⟨content, "mattermost", ch, u⟩ ≠ "" <;>
      simp [hr, sendReplyActs, DispatchEvent.catchallIdx, ih, List.range'_succ]

theorem filterMap_extendedIdx_extendedStageAux (ch root content : String)
    (hs : List (ExtendedMessage → Option ExtendedMessage)) (i : Nat) :
    (extendedStageAux ch root content i hs).filterMap DispatchEvent.extendedIdx =
      List.range' i hs.length := by
  induction hs generalizing i with
  | nil => rfl
  | cons v rest ih =>
    unfold extendedStageAux
    rcases hv : v { Text := content } with _ | r
    · simp [hv, DispatchEvent.extendedIdx, ih, List.range'_succ]
    · rcases hImg : r.Image with _ | img
      · by_cases ht : r.Text ≠ "" <;>
          simp [hv, hImg, ht, sendReplyActs, DispatchEvent.extendedIdx, ih,
            List.range'_succ]
      · simp [hv, hImg, sendReplyActs, sendImageReplyActs,
          DispatchEvent.extendedIdx, ih, List.range'_succ]

theorem filterMap_imageIdx_imageRunAux (ch u root content fn : String)
    (hs : List (String → Request → String)) (i : Nat) :
    (imageRunAux ch u root content fn i hs).filterMap DispatchEvent.imageIdx =
      List.range' i hs.length := by
  induction hs generalizing i with
  | nil => rfl
  | cons v rest ih =>
    unfold imageRunAux
    by_cases hr : v fn ⟨content, "mattermost", ch, u⟩ ≠ "" <;>
      simp [hr, sendReplyActs, DispatchEvent.imageIdx, ih, List.range'_succ]

theorem catchallIdx_exactStage (reg : HandlerRegistry) (ch root content : String) :
    (exactStage reg ch root content).filterMap DispatchEvent.catchallIdx = [] := by
  rw [List.filterMap_eq_nil_iff]
  intro a ha
  rcases mem_exactStage ha with h | ⟨m, h⟩ <;> subst h <;> rfl

theorem catchallIdx_extendedStageAux (ch root content : String) (i : Nat)
    (hs : List (ExtendedMessage → Option ExtendedMessage)) :
    (extendedStageAux ch root content i hs).filterMap DispatchEvent.catchallIdx = [] := by
  rw [List.filterMap_eq_nil_iff]
  intro a ha
  rcases mem_extendedStageAux ha with ⟨j, h⟩ | ⟨m, h⟩ <;> subst h <;> rfl

theorem catchallIdx_commandStage (reg : HandlerRegistry) (ch u root content : String) :
    (commandStage reg ch u root content).filterMap DispatchEvent.catchallIdx = [] := by
  rw [List.filterMap_eq_nil_iff]
  intro a ha
  rcases mem_commandStage ha with ⟨c, t, h⟩ | ⟨m, h⟩ <;> subst h <;> rfl

theorem catchallIdx_attachStageAux (reg : HandlerRegistry) (dl : String → Bool)
    (ch u root content : String) (fs : List String) :
    (attachStageAux reg dl ch u root content fs).filterMap DispatchEvent.catchallIdx = [] := by
  rw [List.filterMap_eq_nil_iff]
  intro a ha
  rcases mem_attachStageAux ha with ⟨g, b, h⟩ | ⟨j, g, h⟩ | ⟨m, h⟩ <;> subst h <;> rfl

theorem extendedIdx_exactStage (reg : HandlerRegistry) (ch root content : String) :
    (exactStage reg ch root content).filterMap DispatchEvent.extendedIdx = [] := by
  rw [List.filterMap_eq_nil_iff]
  intro a ha
  rcases mem_exactStage ha with h | ⟨m, h⟩ <;> subst h <;> rfl

theorem extendedIdx_catchallStageAux (ch u root content : String) (i : Nat)
    (hs : List (Request → String)) :
    (catchallStageAux ch u root content i hs).filterMap DispatchEvent.extendedIdx = [] := by
  rw [List.filterMap_eq_nil_iff]
  intro a ha
  rcases mem_catchallStageAux ha with ⟨j, h⟩ | ⟨m, h⟩ <;> subst h <;> rfl

theorem extendedIdx_commandStage (reg : HandlerRegistry) (ch u root content : String) :
    (commandStage reg ch u root content).filterMap DispatchEvent.extendedIdx = [] := by
  rw [List.filterMap_eq_nil_iff]
  intro a ha
  rcases mem_commandStage ha with ⟨c, t, h⟩ | ⟨m, h⟩ <;> subst h <;> rfl

theorem extendedIdx_attachStageAux (reg : HandlerRegistry) (dl : String → Bool)
    (ch u root content : String) (fs : List String) :
    (attachStageAux reg dl ch u root content fs).filterMap DispatchEvent.extendedIdx = [] := by
  rw [List.filterMap_eq_nil_iff]
  intro a ha
  rcases mem_attachStageAux ha with ⟨g, b, h⟩ | ⟨j, g, h⟩ | ⟨m, h⟩ <;> subst h <;> rfl

/-- C8: on every non-self inbound message, every registered catchall handler
and every registered extended-catchall handler is invoked exactly once, in
registration order (the sequence of catchall invocation indices in the
trace is exactly `0, 1, …, n-1`, and likewise for the extended sequence),
for any registry — in particular regardless of whether the exact-match
stage or any other stage produced a reply — and for either version's
root-id choice. -/
theorem catchall_handlers_run_once_in_order (reg : HandlerRegistry)
    (dl : String → Bool) (bot : String) (f : MattermostPost → String)
    (event : MattermostWebSocketEvent) (p : MattermostPost)
    (hp : event.post = .parsed p) (hev : event.Event = "posted")
    (hself : p.UserId ≠ bot) :
    (handleWebSocketEventCore reg dl bot f event).filterMap
        DispatchEvent.catchallIdx =
      List.range reg.CatchallHandlers.length ∧
    (handleWebSocketEventCore reg dl bot f event).filterMap
        DispatchEvent.extendedIdx =
      List.range reg.CatchallExtendedHandlers.length := by
  rw [handleWebSocketEventCore_eq reg dl bot f event p hp hev hself]
  have hifc : (if p.FileIds.isEmpty then []
      else attachStageAux reg dl p.ChannelId p.UserId (f p) p.Message p.FileIds).filterMap
        DispatchEvent.catchallIdx = [] := by
    split
    · rfl
    · exact catchallIdx_attachStageAux reg dl p.ChannelId p.UserId (f p) p.Message p.FileIds
  have hife : (if p.FileIds.isEmpty then []
      else attachStageAux reg dl p.ChannelId p.UserId (f p) p.Message p.FileIds).filterMap
        DispatchEvent.extendedIdx = [] := by
    split
    · rfl
    · exact extendedIdx_attachStageAux reg dl p.ChannelId p.UserId (f p) p.Message p.FileIds
  constructor
  · simp [List.filterMap_append, hifc,
      catchallIdx_exactStage, catchallIdx_extendedStageAux, catchallIdx_commandStage,
      filterMap_catchallIdx_catchallStageAux, List.range_eq_range']
    intro a _ ha
    rcases mem_attachStageAux ha with ⟨g, b, h⟩ | ⟨j, g, h⟩ | ⟨m, h⟩ <;> subst h <;> rfl
  · simp [List.filterMap_append, hife,
      extendedIdx_exactStage, extendedIdx_catchallStageAux, extendedIdx_commandStage,
      filterMap_extendedIdx_extendedStageAux, List.range_eq_range']
    intro a _ ha
    rcases mem_attachStageAux ha with ⟨g, b, h⟩ | ⟨j, g, h⟩ | ⟨m, h⟩ <;> subst h <;> rfl

theorem catchall_handlers_run_once_in_order_witness :
    (⟨"posted", .parsed pingPost⟩ : MattermostWebSocketEvent).post =
      .parsed pingPost ∧
    (⟨"posted", .parsed pingPost⟩ : MattermostWebSocketEvent).Event = "posted" ∧
    pingPost.UserId ≠ "bot" ∧
    ((handleWebSocketEventCore seqRegistry (fun _ => true) "bot" (fun q => q.Id)
          ⟨"posted", .parsed pingPost⟩).filterMap DispatchEvent.catchallIdx =
        List.range seqRegistry.CatchallHandlers.length ∧
      (handleWebSocketEventCore seqRegistry (fun _ => true) "bot" (fun q => q.Id)
          ⟨"posted", .parsed pingPost⟩).filterMap DispatchEvent.extendedIdx =
        List.range seqRegistry.CatchallExtendedHandlers.length) :=
  ⟨rfl, rfl, by decide,
    catchall_handlers_run_once_in_order seqRegistry (fun _ => true) "bot"
      (fun q => q.Id) ⟨"posted", .parsed pingPost⟩ pingPost rfl rfl (by decide)⟩

theorem attachStageAux_cons (reg : HandlerRegistry) (dl : String → Bool)
    (ch u root content f : String) (rest : List String) :
    attachStageAux reg dl ch u root content (f :: rest) =
      (if dl f then
        .downloadAttempt f true ::
          imageRunAux ch u root content ("tmp/" ++ f) 0 reg.ImageHandlers
       else [.downloadAttempt f false])
        ++ attachStageAux reg dl ch u root content rest := rfl

/-- C9: a download failure for one attachment contributes only its own
skipped download attempt to the attachment stage — the files before and
after it are processed exactly as they would be on their own — and every
attachment that downloads successfully is run through every registered
image handler (its image-invocation indices are exactly `0, …, n-1`);
being the last stage, the attachment stage prevents no later stage. -/
theorem attachment_failure_skips_only_that_file (reg : HandlerRegistry)
    (dl : String → Bool) (ch u root content : String)
    (pre post : List String) (bad g : String)
    (hbad : dl bad = false) (hok : dl g = true) :
    attachStageAux reg dl ch u root content (pre ++ bad :: post) =
      attachStageAux reg dl ch u root content pre
        ++ .downloadAttempt bad false :: attachStageAux reg dl ch u root content post ∧
    (attachStageAux reg dl ch u root content [g]).filterMap DispatchEvent.imageIdx =
      List.range reg.ImageHandlers.length := by
  constructor
  · induction pre with
    | nil => simp [attachStageAux, hbad]
    | cons x xs ih =>
      rw [List.cons_append, attachStageAux_cons, attachStageAux_cons, ih,
        List.append_assoc]
  · simp [attachStageAux, hok, DispatchEvent.imageIdx,
      filterMap_imageIdx_imageRunAux, List.range_eq_range']

theorem attachment_failure_skips_only_that_file_witness :
    (fun s => s != "bad") "bad" = false ∧
    (fun s => s != "bad") "a" = true ∧
    (attachStageAux seqRegistry (fun s => s != "bad") "ch" "u" "p1" "pic"
        (["a"] ++ "bad" :: ["c"]) =
      attachStageAux seqRegistry (fun s => s != "bad") "ch" "u" "p1" "pic" ["a"]
        ++ .downloadAttempt "bad" false ::
          attachStageAux seqRegistry (fun s => s != "bad") "ch" "u" "p1" "pic" ["c"] ∧
    (attachStageAux seqRegistry (fun s => s != "bad") "ch" "u" "p1" "pic"
        ["a"]).filterMap DispatchEvent.imageIdx =
      List.range seqRegistry.ImageHandlers.length) :=
  ⟨by decide, by decide,
    attachment_failure_skips_only_that_file seqRegistry (fun s => s != "bad")
      "ch" "u" "p1" "pic" ["a"] ["c"] "bad" "a" (by decide) (by decide)⟩

/-- C3 counterexample: with default channel `general` and an options bag
overriding the target channel to `override`, `SendWithOptions` still posts
to `general`, not to the override. -/
theorem sendWithOptions_ignores_channel_override_cex :
    (SendWithOptions (some { DefaultChannel := "general" }) (fun _ _ => true)
        "hi" { Channel := some "override" }).2 =
      [.createPost "general" "hi"] ∧
    (SendWithOptions (some { DefaultChannel := "general" }) (fun _ _ => true)
        "hi" { Channel := some "override" }).2 ≠
      [.createPost "override" "hi"] :=
  ⟨rfl, by decide⟩

/-- C3 (amended): `SendWithOptions(text, options)` on a non-nil Mattermost
adapter ignores the options bag entirely (the result is the same for every
options value, target-channel override included) and sends the text to the
adapter's default channel. -/
theorem sendWithOptions_targets_default_channel
    (st : MattermostMessagePlatform) (transportOk : String → String → Bool)
    (text : String) (options : SendOptions) (hd : st.DefaultChannel ≠ "") :
    SendWithOptions (some st) transportOk text options =
      SendWithOptions (some st) transportOk text {} ∧
    (SendWithOptions (some st) transportOk text options).2 =
      [.createPost st.DefaultChannel text] := by
  constructor
  · rfl
  · simp [SendWithOptions, ChannelMessageSend, hd]

theorem sendWithOptions_targets_default_channel_witness :
    ({ DefaultChannel := "general" } : MattermostMessagePlatform).DefaultChannel ≠ "" ∧
    (SendWithOptions (some { DefaultChannel := "general" }) (fun _ _ => true)
        "hi" { Channel := some "override" } =
      SendWithOptions (some { DefaultChannel := "general" }) (fun _ _ => true)
        "hi" { } ∧
    (SendWithOptions (some { DefaultChannel := "general" }) (fun _ _ => true)
        "hi" { Channel := some "override" }).2 =
      [.createPost "general" "hi"]) :=
  ⟨by decide,
    sendWithOptions_targets_default_channel { DefaultChannel := "general" }
      (fun _ _ => true) "hi" { Channel := some "override" } (by decide)⟩

end Multibot
